import Mathlib

/-!
Verification of the 2D analytic-geometry header `chapter10/10.06/line.h`:
a `point` with componentwise subtraction, dot product, Euclidean norm and
epsilon-tolerant equality, and a `line` through two distinct points with the
queries `sine`, `x_intercept`, `y_intercept`, `crosses` and line equality.
IEEE doubles are modelled as real numbers; the asserting constructor is
modelled as an `Option`-returning factory whose `none` result stands for the
fatal `assert` abort.
-/

open Classical

namespace LineH

/-- `static const double epsilon = 1.e-10;` -/
noncomputable def epsilon : ℝ := 1 / 10 ^ 10

/-- `struct point { double x; double y; };` -/
structure point where
  x : ℝ
  y : ℝ

/-- `operator-(A, B)`: componentwise `A - B`. -/
def psub (A B : point) : point :=
  ⟨A.x - B.x, A.y - B.y⟩

/-- `operator*(A, B)`: the dot product `A.x*B.x + A.y*B.y`. -/
def pdot (A B : point) : ℝ :=
  A.x * B.x + A.y * B.y

/-- `norm(A) = std::sqrt(A * A)`. -/
noncomputable def norm (A : point) : ℝ :=
  Real.sqrt (pdot A A)

/-- `operator==(A, B)` on points: `norm(B - A) < epsilon`. -/
def pointEq (A B : point) : Prop :=
  norm (psub B A) < epsilon

/-- `operator!=(A, B)` on points: `!(A == B)`. -/
def pointNe (A B : point) : Prop :=
  ¬ pointEq A B

/-- `class line`: the two stored defining points `A` and `B`. -/
structure line where
  A : point
  B : point

/-- The constructor's `assert(A != B)` precondition. -/
def lineValid (l : line) : Prop :=
  pointNe l.A l.B

/-- The asserting constructor `line(A, B)`; `none` models the fatal abort of
a failed `assert(A != B)`, `some` stores the two points verbatim. -/
noncomputable def mkLine (A B : point) : Option line :=
  if pointEq A B then none else some ⟨A, B⟩

/-- `std::numeric_limits<double>::max()`, the largest finite double,
`2^1024 - 2^971 = 1.7976931348623157e308`. -/
def dblMax : ℝ :=
  2 ^ 1024 - 2 ^ 971

/-- `line::sine()`. -/
noncomputable def line.sine (l : line) : ℝ :=
  if abs (l.A.x - l.B.x) < epsilon then 1
  else if l.B.x > l.A.x then (l.B.y - l.A.y) / norm (psub l.B l.A)
  else (l.A.y - l.B.y) / norm (psub l.B l.A)

/-- `line::x_intercept()`. -/
noncomputable def line.x_intercept (l : line) : ℝ :=
  if abs (l.A.y - l.B.y) < epsilon then dblMax
  else l.A.x - (l.B.x - l.A.x) / (l.B.y - l.A.y) * l.A.y

/-- `line::y_intercept()`. -/
noncomputable def line.y_intercept (l : line) : ℝ :=
  if abs (l.A.x - l.B.x) < epsilon then dblMax
  else l.A.y - (l.B.y - l.A.y) / (l.B.x - l.A.x) * l.A.x

/-- `line::crosses(C)`: the point-equality shortcut against `A` and `B`,
then the scaled collinearity test
`abs(abs((B - A) * (C - B)) - ab * bc) < epsilon * ab * bc`. -/
def line.crosses (l : line) (C : point) : Prop :=
  pointEq l.A C ∨ pointEq l.B C ∨
    abs (abs (pdot (psub l.B l.A) (psub C l.B)) -
        norm (psub l.B l.A) * norm (psub C l.B)) <
      epsilon * (norm (psub l.B l.A) * norm (psub C l.B))

/-- `operator==(r, s)` on lines: `r.crosses(s.A) && r.crosses(s.B)`. -/
def lineEq (r s : line) : Prop :=
  r.crosses s.A ∧ r.crosses s.B

/-- The spec's S1 line, through (0, 5) and (3, 5). -/
def lineS1 : line := ⟨⟨0, 5⟩, ⟨3, 5⟩⟩

/-- A unit-span line along the x axis, through (0, 0) and (1, 0). -/
def lineR : line := ⟨⟨0, 0⟩, ⟨1, 0⟩⟩

/-- A short line through (0, 0) and (1/1000, 1/200000), leaving the x axis
at slope 1/200. -/
noncomputable def lineS : line := ⟨⟨0, 0⟩, ⟨1 / 1000, 1 / 200000⟩⟩

/-- A nearly degenerate diagonal line through (0, 0) and (8e-11, 8e-11):
both coordinate differences are below `epsilon`, yet the two points pass the
constructor's distinctness assertion. -/
noncomputable def lineTiny : line := ⟨⟨0, 0⟩, ⟨8 / 10 ^ 11, 8 / 10 ^ 11⟩⟩

lemma epsilon_pos : 0 < epsilon := by norm_num [epsilon]

lemma pdot_psub_self (A B : point) :
    pdot (psub B A) (psub B A) = (B.x - A.x) ^ 2 + (B.y - A.y) ^ 2 := by
  simp only [pdot, psub]
  ring

lemma pdot_self_nonneg (P : point) : 0 ≤ pdot P P := by
  have hx := mul_self_nonneg P.x
  have hy := mul_self_nonneg P.y
  simp only [pdot]
  linarith

lemma norm_lt_iff_sq {c : ℝ} (hc : 0 < c) (P : point) :
    norm P < c ↔ pdot P P < c ^ 2 :=
  Real.sqrt_lt' hc

lemma le_norm_iff_sq {c : ℝ} (hc : 0 ≤ c) (P : point) :
    c ≤ norm P ↔ c ^ 2 ≤ pdot P P :=
  Real.le_sqrt hc (pdot_self_nonneg P)

lemma pointEq_iff_sq (A B : point) :
    pointEq A B ↔ pdot (psub B A) (psub B A) < epsilon ^ 2 :=
  norm_lt_iff_sq epsilon_pos _

lemma not_pointEq_iff_sq (A B : point) :
    ¬ pointEq A B ↔ epsilon ^ 2 ≤ pdot (psub B A) (psub B A) := by
  rw [pointEq_iff_sq]
  exact not_lt

lemma pointEq_refl (P : point) : pointEq P P := by
  rw [pointEq_iff_sq, pdot_psub_self]
  simp only [sub_self]
  norm_num [epsilon]

lemma lineValid_of_sq {l : line}
    (h : epsilon ^ 2 ≤ pdot (psub l.B l.A) (psub l.B l.A)) : lineValid l :=
  (not_pointEq_iff_sq _ _).mpr h

lemma norm_psub_comm (A B : point) : norm (psub A B) = norm (psub B A) := by
  unfold norm
  congr 1
  simp only [pdot, psub]
  ring

lemma lineR_valid : lineValid lineR := by
  apply lineValid_of_sq
  simp only [lineR, pdot, psub]
  norm_num [epsilon]

lemma sqrt_mul_sqrt (a b : ℝ) (ha : 0 ≤ a) :
    Real.sqrt a * Real.sqrt b = Real.sqrt (a * b) :=
  (Real.sqrt_mul ha b).symm

/-- The scaled collinearity test holds once the squared data brackets `d^2`
strictly between `(1 - ε)^2` and `(1 + ε)^2` times `q1 * q2`. -/
lemma crosses_test_of_sq {d q1 q2 : ℝ} (h1 : 0 ≤ q1) (h2 : 0 ≤ q2)
    (hlo : (1 - epsilon) ^ 2 * (q1 * q2) < d ^ 2)
    (hhi : d ^ 2 < (1 + epsilon) ^ 2 * (q1 * q2)) :
    abs (abs d - Real.sqrt q1 * Real.sqrt q2) <
      epsilon * (Real.sqrt q1 * Real.sqrt q2) := by
  rw [sqrt_mul_sqrt q1 q2 h1]
  set s := Real.sqrt (q1 * q2) with hs
  have hs0 : 0 ≤ s := Real.sqrt_nonneg _
  have heps1 : (0 : ℝ) < 1 - epsilon := by norm_num [epsilon]
  have hlow : (1 - epsilon) * s < abs d := by
    have h1' : Real.sqrt ((1 - epsilon) ^ 2 * (q1 * q2)) < Real.sqrt (d ^ 2) :=
      Real.sqrt_lt_sqrt (by positivity) hlo
    rwa [Real.sqrt_mul (by positivity) _, Real.sqrt_sq heps1.le,
      Real.sqrt_sq_eq_abs, ← hs] at h1'
  have hhigh : abs d < (1 + epsilon) * s := by
    have h2' : Real.sqrt (d ^ 2) < Real.sqrt ((1 + epsilon) ^ 2 * (q1 * q2)) :=
      Real.sqrt_lt_sqrt (sq_nonneg d) hhi
    rwa [Real.sqrt_mul (by positivity) _,
      Real.sqrt_sq (by norm_num [epsilon] : (0:ℝ) ≤ 1 + epsilon),
      Real.sqrt_sq_eq_abs, ← hs] at h2'
  rw [abs_lt]
  constructor <;> nlinarith

/-- The scaled collinearity test fails once `d^2` stays below
`(1 - ε)^2 * (q1 * q2)`. -/
lemma not_crosses_test_of_sq {d q1 q2 : ℝ} (h1 : 0 ≤ q1)
    (hle : d ^ 2 ≤ (1 - epsilon) ^ 2 * (q1 * q2)) :
    ¬ abs (abs d - Real.sqrt q1 * Real.sqrt q2) <
        epsilon * (Real.sqrt q1 * Real.sqrt q2) := by
  rw [sqrt_mul_sqrt q1 q2 h1]
  set s := Real.sqrt (q1 * q2) with hs
  have hs0 : 0 ≤ s := Real.sqrt_nonneg _
  have heps1 : (0 : ℝ) < 1 - epsilon := by norm_num [epsilon]
  have hdle : abs d ≤ (1 - epsilon) * s := by
    have h' : Real.sqrt (d ^ 2) ≤ Real.sqrt ((1 - epsilon) ^ 2 * (q1 * q2)) :=
      Real.sqrt_le_sqrt hle
    rwa [Real.sqrt_mul (by positivity) _, Real.sqrt_sq heps1.le,
      Real.sqrt_sq_eq_abs, ← hs] at h'
  intro hcon
  rw [abs_lt] at hcon
  nlinarith [hcon.1, hcon.2, abs_nonneg d]

lemma abs_lt_eps {t : ℝ} (h : t ^ 2 < epsilon ^ 2) : abs t < epsilon := by
  nlinarith [sq_abs t, abs_nonneg t, epsilon_pos]

lemma eps_le_abs {t : ℝ} (h : epsilon ^ 2 ≤ t ^ 2) : epsilon ≤ abs t := by
  nlinarith [sq_abs t, abs_nonneg t, epsilon_pos]

lemma lineS1_guard_x : ¬ abs (lineS1.A.x - lineS1.B.x) < epsilon := by
  apply not_lt.mpr
  apply eps_le_abs
  show epsilon ^ 2 ≤ ((0 : ℝ) - 3) ^ 2
  norm_num [epsilon]

lemma lineS1_guard_y : abs (lineS1.A.y - lineS1.B.y) < epsilon := by
  apply abs_lt_eps
  show ((5 : ℝ) - 5) ^ 2 < epsilon ^ 2
  norm_num [epsilon]

lemma lineS1_sine : lineS1.sine = 0 := by
  unfold line.sine
  rw [if_neg lineS1_guard_x, if_pos (show lineS1.B.x > lineS1.A.x from by
    show (0 : ℝ) < 3
    norm_num)]
  rw [show lineS1.B.y - lineS1.A.y = 0 from by
    show (5 : ℝ) - 5 = 0
    norm_num]
  exact zero_div _

lemma lineS1_x_intercept : lineS1.x_intercept = dblMax := by
  unfold line.x_intercept
  rw [if_pos lineS1_guard_y]

lemma lineS1_y_intercept : lineS1.y_intercept = 5 := by
  unfold line.y_intercept
  rw [if_neg lineS1_guard_x]
  show (5 : ℝ) - (5 - 5) / (3 - 0) * 0 = 5
  norm_num

lemma lineS1_crosses_far : lineS1.crosses ⟨-7, 5⟩ := by
  refine Or.inr (Or.inr ?_)
  unfold norm
  apply crosses_test_of_sq (pdot_self_nonneg _) (pdot_self_nonneg _)
  · simp only [lineS1, pdot, psub]
    norm_num [epsilon]
  · simp only [lineS1, pdot, psub]
    norm_num [epsilon]

/-- The point (−7, 5.0000001), written with an exact rational ordinate,
does satisfy the scaled collinearity test on the S1 line. -/
lemma lineS1_crosses_off : lineS1.crosses ⟨-7, 50000001 / 10 ^ 7⟩ := by
  refine Or.inr (Or.inr ?_)
  unfold norm
  apply crosses_test_of_sq (pdot_self_nonneg _) (pdot_self_nonneg _)
  · simp only [lineS1, pdot, psub]
    norm_num [epsilon]
  · simp only [lineS1, pdot, psub]
    norm_num [epsilon]

lemma lineS_valid : lineValid lineS := by
  apply lineValid_of_sq
  simp only [lineS, pdot, psub]
  norm_num [epsilon]

lemma lineR_crosses_sA : lineR.crosses lineS.A :=
  Or.inl (pointEq_refl ⟨0, 0⟩)

lemma lineR_crosses_sB : lineR.crosses lineS.B := by
  refine Or.inr (Or.inr ?_)
  unfold norm
  apply crosses_test_of_sq (pdot_self_nonneg _) (pdot_self_nonneg _)
  · simp only [lineR, lineS, pdot, psub]
    norm_num [epsilon]
  · simp only [lineR, lineS, pdot, psub]
    norm_num [epsilon]

lemma lineS_not_crosses_rB : ¬ lineS.crosses lineR.B := by
  intro h
  rcases h with h | h | h
  · rw [pointEq_iff_sq] at h
    simp only [lineR, lineS, pdot, psub] at h
    norm_num [epsilon] at h
  · rw [pointEq_iff_sq] at h
    simp only [lineR, lineS, pdot, psub] at h
    norm_num [epsilon] at h
  · unfold norm at h
    refine not_crosses_test_of_sq (pdot_self_nonneg _) ?_ h
    simp only [lineR, lineS, pdot, psub]
    norm_num [epsilon]

lemma lineS1_valid : lineValid lineS1 := by
  apply lineValid_of_sq
  simp only [lineS1, pdot, psub]
  norm_num [epsilon]

/-- C1: for every validly constructed line and every point C, `crosses C`
holds iff C is within epsilon of A or of B, or, with d the dot product of
B − A and C − B and ab, bc the two norms, `|abs d − ab·bc| < ε·ab·bc`; the
point-equality shortcut alone is decisive. -/
theorem C1_crosses_spec (l : line) (C : point) (h : lineValid l) :
    (l.crosses C ↔
      pointEq l.A C ∨ pointEq l.B C ∨
        abs (abs (pdot (psub l.B l.A) (psub C l.B)) -
            norm (psub l.B l.A) * norm (psub C l.B)) <
          epsilon * (norm (psub l.B l.A) * norm (psub C l.B))) ∧
    (pointEq l.A C → l.crosses C) ∧ (pointEq l.B C → l.crosses C) :=
  ⟨Iff.rfl, fun hp => Or.inl hp, fun hp => Or.inr (Or.inl hp)⟩

/-- Witness for C1 at the unit line on the x axis and its own first point. -/
theorem C1_crosses_spec_witness :
    lineValid lineR ∧ (pointEq lineR.A lineR.A → lineR.crosses lineR.A) :=
  ⟨lineR_valid, (C1_crosses_spec lineR lineR.A lineR_valid).2.1⟩

/-- C2 counterexample: line equality is not symmetric.  The unit line r on
the x axis and the short line s through (0,0) and (1/1000, 1/200000) are
both validly constructed, r == s holds, yet s == r fails: seen from s the
tolerance is scaled by the tiny segment lengths, and the distant point
(1, 0) fails s's collinearity test. -/
theorem C2_symmetry_counterexample :
    lineValid lineR ∧ lineValid lineS ∧
      lineEq lineR lineS ∧ ¬ lineEq lineS lineR :=
  ⟨lineR_valid, lineS_valid, ⟨lineR_crosses_sA, lineR_crosses_sB⟩,
    fun h => lineS_not_crosses_rB h.2⟩

/-- C2 (amended): r == s is r.crosses(s.A) && r.crosses(s.B); the relation
is reflexive on validly constructed lines, but it is not symmetric. -/
theorem C2_lineEq_refl (r : line) (h : lineValid r) : lineEq r r :=
  ⟨Or.inl (pointEq_refl r.A), Or.inr (Or.inl (pointEq_refl r.B))⟩

/-- Witness for the amended C2 at the unit line on the x axis. -/
theorem C2_lineEq_refl_witness : lineValid lineR ∧ lineEq lineR lineR :=
  ⟨lineR_valid, C2_lineEq_refl lineR lineR_valid⟩

/-- C3 counterexample: scenario S1 as stated is false, because
crosses((−7, 5.0000001)) returns true, not false: the offset 1e-7 at
distance 10 bends the angle by only about 1e-8 radians, well inside the
scaled tolerance. -/
theorem C3_scenario_counterexample :
    ¬ (lineS1.sine = 0 ∧ lineS1.x_intercept = dblMax ∧
        lineS1.y_intercept = 5 ∧ lineS1.crosses ⟨-7, 5⟩ ∧
        ¬ lineS1.crosses ⟨-7, 50000001 / 10 ^ 7⟩) :=
  fun h => h.2.2.2.2 lineS1_crosses_off

/-- C3 (amended): on the line through (0,5) and (3,5), sine() = 0,
x_intercept() is the largest-finite-double sentinel, y_intercept() = 5,
crosses((−7, 5)) = true, and crosses((−7, 5.0000001)) = true as well. -/
theorem C3_scenario_amended :
    lineS1.sine = 0 ∧ lineS1.x_intercept = dblMax ∧
      lineS1.y_intercept = 5 ∧ lineS1.crosses ⟨-7, 5⟩ ∧
      lineS1.crosses ⟨-7, 50000001 / 10 ^ 7⟩ :=
  ⟨lineS1_sine, lineS1_x_intercept, lineS1_y_intercept, lineS1_crosses_far,
    lineS1_crosses_off⟩

/-- C4: constructing from points with ‖B − A‖ < ε trips the assertion (the
factory returns `none`, the model of the fatal abort); otherwise the line is
built and stores A, B verbatim. -/
theorem C4_constructor_contract (A B : point) :
    (norm (psub B A) < epsilon → mkLine A B = none) ∧
    (epsilon ≤ norm (psub B A) → mkLine A B = some ⟨A, B⟩) := by
  constructor
  · intro h
    unfold mkLine
    exact if_pos h
  · intro h
    unfold mkLine
    exact if_neg (not_lt.mpr h)

/-- Witness for C4: the spec's S6 pair (3,4), (3, 4 + 1e-12) aborts, while
(0,0), (1,0) constructs and stores both points. -/
theorem C4_constructor_contract_witness :
    mkLine ⟨3, 4⟩ ⟨3, 4 + 1 / 10 ^ 12⟩ = none ∧
    mkLine ⟨0, 0⟩ ⟨1, 0⟩ = some ⟨⟨0, 0⟩, ⟨1, 0⟩⟩ := by
  constructor
  · apply (C4_constructor_contract _ _).1
    rw [norm_lt_iff_sq epsilon_pos]
    simp only [pdot, psub]
    norm_num [epsilon]
  · apply (C4_constructor_contract _ _).2
    rw [le_norm_iff_sq epsilon_pos.le]
    simp only [pdot, psub]
    norm_num [epsilon]

/-- C5: on a vertical line (|A.x − B.x| < ε) sine() returns exactly 1, and
on a non-vertical line the result lies in [−1, 1]. -/
theorem C5_sine_range (l : line) (h : lineValid l) :
    (abs (l.A.x - l.B.x) < epsilon → l.sine = 1) ∧
    (¬ abs (l.A.x - l.B.x) < epsilon → -1 ≤ l.sine ∧ l.sine ≤ 1) := by
  constructor
  · intro hg
    unfold line.sine
    exact if_pos hg
  · intro hg
    have hx : epsilon ≤ abs (l.A.x - l.B.x) := not_lt.mp hg
    have hxs : epsilon ^ 2 ≤ (l.B.x - l.A.x) ^ 2 := by
      have h3 := pow_le_pow_left₀ epsilon_pos.le hx 2
      rw [sq_abs] at h3
      nlinarith
    have hn : 0 < norm (psub l.B l.A) := by
      have h2 : epsilon ^ 2 ≤ pdot (psub l.B l.A) (psub l.B l.A) := by
        rw [pdot_psub_self]
        nlinarith [sq_nonneg (l.B.y - l.A.y)]
      exact lt_of_lt_of_le epsilon_pos ((le_norm_iff_sq epsilon_pos.le _).mpr h2)
    have hyle : abs (l.B.y - l.A.y) ≤ norm (psub l.B l.A) := by
      rw [le_norm_iff_sq (abs_nonneg _), pdot_psub_self, sq_abs]
      nlinarith [sq_nonneg (l.B.x - l.A.x)]
    have key : ∀ c : ℝ, abs c ≤ norm (psub l.B l.A) →
        -1 ≤ c / norm (psub l.B l.A) ∧ c / norm (psub l.B l.A) ≤ 1 := by
      intro c hc
      have habs : abs (c / norm (psub l.B l.A)) ≤ 1 := by
        rw [abs_div, abs_of_pos hn]
        exact (div_le_one hn).mpr hc
      exact abs_le.mp habs
    unfold line.sine
    rw [if_neg hg]
    by_cases hbx : l.B.x > l.A.x
    · rw [if_pos hbx]
      exact key _ hyle
    · rw [if_neg hbx]
      refine key _ ?_
      rwa [abs_sub_comm]

/-- Witness for C5: the vertical line through (2,0) and (2,9) has sine 1. -/
theorem C5_sine_range_witness :
    lineValid ⟨⟨2, 0⟩, ⟨2, 9⟩⟩ ∧ line.sine ⟨⟨2, 0⟩, ⟨2, 9⟩⟩ = 1 := by
  have hv : lineValid ⟨⟨2, 0⟩, ⟨2, 9⟩⟩ := by
    apply lineValid_of_sq
    simp only [pdot, psub]
    norm_num [epsilon]
  refine ⟨hv, (C5_sine_range _ hv).1 ?_⟩
  apply abs_lt_eps
  show ((2 : ℝ) - 2) ^ 2 < epsilon ^ 2
  norm_num [epsilon]

/-- C6: for a non-vertical pair of points, sine() does not depend on the
order in which the two points are given to the constructor. -/
theorem C6_sine_swap (A B : point) (h : ¬ abs (A.x - B.x) < epsilon) :
    line.sine ⟨A, B⟩ = line.sine ⟨B, A⟩ := by
  have h' : ¬ abs (B.x - A.x) < epsilon := by rwa [abs_sub_comm] at h
  have hne : A.x ≠ B.x := by
    intro he
    exact h (by rw [he, sub_self, abs_zero]; exact epsilon_pos)
  simp only [line.sine, gt_iff_lt]
  rw [if_neg h, if_neg h']
  rcases hne.lt_or_lt with hlt | hlt
  · rw [if_pos hlt, if_neg (asymm hlt), norm_psub_comm A B]
  · rw [if_neg (asymm hlt), if_pos hlt, norm_psub_comm A B]

/-- Witness for C6 at the diagonal pair (0,0), (1,1). -/
theorem C6_sine_swap_witness :
    (¬ abs ((0 : ℝ) - 1) < epsilon) ∧
      line.sine ⟨⟨0, 0⟩, ⟨1, 1⟩⟩ = line.sine ⟨⟨1, 1⟩, ⟨0, 0⟩⟩ := by
  have h : ¬ abs ((0 : ℝ) - 1) < epsilon := by
    apply not_lt.mpr
    apply eps_le_abs
    norm_num [epsilon]
  exact ⟨h, C6_sine_swap ⟨0, 0⟩ ⟨1, 1⟩ h⟩

/-- C7: x_intercept() returns the largest-finite-double sentinel exactly on
the (nearly) horizontal branch |A.y − B.y| < ε, and otherwise
A.x − m′·A.y with m′ = (B.x − A.x)/(B.y − A.y). -/
theorem C7_x_intercept_spec (l : line) (h : lineValid l) :
    (abs (l.A.y - l.B.y) < epsilon → l.x_intercept = dblMax) ∧
    (¬ abs (l.A.y - l.B.y) < epsilon →
      l.x_intercept = l.A.x - (l.B.x - l.A.x) / (l.B.y - l.A.y) * l.A.y) := by
  constructor
  · intro hg
    unfold line.x_intercept
    exact if_pos hg
  · intro hg
    unfold line.x_intercept
    exact if_neg hg

/-- Witness for C7 at the horizontal S1 line. -/
theorem C7_x_intercept_spec_witness :
    lineValid lineS1 ∧ lineS1.x_intercept = dblMax :=
  ⟨lineS1_valid, (C7_x_intercept_spec lineS1 lineS1_valid).1 lineS1_guard_y⟩

/-- C8: point approximate equality is reflexive and symmetric but not
transitive: (0,0) ≈ (7e-11, 0) and (7e-11, 0) ≈ (1.4e-10, 0), yet
(0,0) and (1.4e-10, 0) are 1.4e-10 ≥ ε apart. -/
theorem C8_pointEq_props :
    (∀ P : point, pointEq P P) ∧
    (∀ P Q : point, pointEq P Q ↔ pointEq Q P) ∧
    (pointEq ⟨0, 0⟩ ⟨7 / 10 ^ 11, 0⟩ ∧
      pointEq ⟨7 / 10 ^ 11, 0⟩ ⟨14 / 10 ^ 11, 0⟩ ∧
      ¬ pointEq ⟨0, 0⟩ ⟨14 / 10 ^ 11, 0⟩) := by
  refine ⟨pointEq_refl, ?_, ?_, ?_, ?_⟩
  · intro P Q
    unfold pointEq
    rw [norm_psub_comm]
  · rw [pointEq_iff_sq]
    simp only [pdot, psub]
    norm_num [epsilon]
  · rw [pointEq_iff_sq]
    simp only [pdot, psub]
    norm_num [epsilon]
  · rw [not_pointEq_iff_sq]
    simp only [pdot, psub]
    norm_num [epsilon]

/-- C9: each branch guard alone bounds the divisor it protects away from
zero: a failed vertical guard forces ‖B − A‖ ≥ ε, a failed horizontal guard
forces |B.y − A.y| ≥ ε (so B.y − A.y ≠ 0), and a failed vertical guard
forces B.x − A.x ≠ 0; no construction precondition is needed. -/
theorem C9_guarded_divisors (l : line) :
    (¬ abs (l.A.x - l.B.x) < epsilon →
      epsilon ≤ norm (psub l.B l.A) ∧ norm (psub l.B l.A) ≠ 0) ∧
    (¬ abs (l.A.y - l.B.y) < epsilon → l.B.y - l.A.y ≠ 0) ∧
    (¬ abs (l.A.x - l.B.x) < epsilon → l.B.x - l.A.x ≠ 0) := by
  refine ⟨?_, ?_, ?_⟩
  · intro hg
    have hx : epsilon ≤ abs (l.A.x - l.B.x) := not_lt.mp hg
    have hxs : epsilon ^ 2 ≤ (l.B.x - l.A.x) ^ 2 := by
      have h3 := pow_le_pow_left₀ epsilon_pos.le hx 2
      rw [sq_abs] at h3
      nlinarith
    have h4 : epsilon ≤ norm (psub l.B l.A) := by
      rw [le_norm_iff_sq epsilon_pos.le, pdot_psub_self]
      nlinarith [sq_nonneg (l.B.y - l.A.y)]
    exact ⟨h4, (lt_of_lt_of_le epsilon_pos h4).ne'⟩
  · intro hg
    have hy : epsilon ≤ abs (l.A.y - l.B.y) := not_lt.mp hg
    have h0 : l.A.y - l.B.y ≠ 0 := abs_pos.mp (lt_of_lt_of_le epsilon_pos hy)
    intro he
    apply h0
    linarith
  · intro hg
    have hx : epsilon ≤ abs (l.A.x - l.B.x) := not_lt.mp hg
    have h0 : l.A.x - l.B.x ≠ 0 := abs_pos.mp (lt_of_lt_of_le epsilon_pos hx)
    intro he
    apply h0
    linarith

/-- Witness for C9 at the diagonal line through (0,0) and (1,1). -/
theorem C9_guarded_divisors_witness :
    (epsilon ≤ norm (psub ⟨1, 1⟩ ⟨0, 0⟩) ∧ norm (psub ⟨1, 1⟩ ⟨0, 0⟩) ≠ 0) ∧
      ((1 : ℝ) - 0 ≠ 0) := by
  have hg : ¬ abs ((⟨⟨0, 0⟩, ⟨1, 1⟩⟩ : line).A.x -
      (⟨⟨0, 0⟩, ⟨1, 1⟩⟩ : line).B.x) < epsilon := by
    apply not_lt.mpr
    apply eps_le_abs
    show epsilon ^ 2 ≤ ((0 : ℝ) - 1) ^ 2
    norm_num [epsilon]
  exact ⟨(C9_guarded_divisors ⟨⟨0, 0⟩, ⟨1, 1⟩⟩).1 hg,
    (C9_guarded_divisors ⟨⟨0, 0⟩, ⟨1, 1⟩⟩).2.2 hg⟩

/-- C10: the diagonal line through (0,0) and (8e-11, 8e-11) passes the
constructor's assertion (the points are ~1.13e-10 ≥ ε apart), yet both
coordinate differences are below ε, so x_intercept() and y_intercept()
both return the sentinel and sine() returns 1. -/
theorem C10_degenerate_diagonal :
    lineValid lineTiny ∧
    abs (lineTiny.A.x - lineTiny.B.x) < epsilon ∧
    abs (lineTiny.A.y - lineTiny.B.y) < epsilon ∧
    lineTiny.x_intercept = dblMax ∧
    lineTiny.y_intercept = dblMax ∧
    lineTiny.sine = 1 := by
  have hx : abs (lineTiny.A.x - lineTiny.B.x) < epsilon := by
    apply abs_lt_eps
    show ((0 : ℝ) - 8 / 10 ^ 11) ^ 2 < epsilon ^ 2
    norm_num [epsilon]
  have hy : abs (lineTiny.A.y - lineTiny.B.y) < epsilon := by
    apply abs_lt_eps
    show ((0 : ℝ) - 8 / 10 ^ 11) ^ 2 < epsilon ^ 2
    norm_num [epsilon]
  have hv : lineValid lineTiny := by
    apply lineValid_of_sq
    simp only [lineTiny, pdot, psub]
    norm_num [epsilon]
  refine ⟨hv, hx, hy, ?_, ?_, ?_⟩
  · unfold line.x_intercept
    exact if_pos hy
  · unfold line.y_intercept
    exact if_pos hx
  · unfold line.sine
    exact if_pos hx

end LineH
